import Mathlib

/-!
Shallow embedding of `wtf.analysis.db.ZoneIndex`
(src/src/wtf/analysis/db/zoneindex.js) together with the minimal contracts
of its collaborators (`wtf.analysis.db.EventList` base class,
`wtf.analysis.Scope`, `wtf.analysis.Event` / `wtf.analysis.ScopeEvent`),
which are not part of the provided sources and are therefore modelled from
the specification (spec.md sections 3, 4.1, 4.2).

Modelling choices:
- JavaScript object identity is modelled with a heap: scopes are identified
  by a `Nat` id and live in a map `scopes : Nat -> ScopeData`; the mutable
  `scope` association of events (`e.setScope(...)`) lives in a map
  `eventScope : Nat -> Option (Option Nat)` keyed by the event id, where
  `none` means `setScope` was never called on this event, `some none` means
  it was called with `null`, and `some (some sid)` means it was called with
  the scope `sid`.
- `e instanceof wtf.analysis.ScopeEvent` is modelled by `e.scopeRef.isSome`:
  a `ScopeEvent` owns the freshly created scope it opens (spec section 3),
  carried here as `scopeRef = some sid`.
- Event-type identifiers are numeric (`eventType : Nat`); the identifier
  cached at construction for `wtf.scope.leave` is the state field
  `scopeLeaveType`.
- Timestamps are `Nat` (only comparisons are performed on them).
-/

namespace Wtf

/-- An event record as consumed by the index (spec section 3): an owning
zone, a timestamp, a numeric event-type identifier, and, when it is a
`ScopeEvent`, the id of the freshly created scope it opens. `eid` models
JavaScript object identity. -/
structure Event where
  eid : Nat
  zone : Nat
  time : Nat
  eventType : Nat
  scopeRef : Option Nat
  deriving DecidableEq, Repr

/-- The mutable fields of one `wtf.analysis.Scope` heap object (spec
section 4.2): parent back-reference, ordered child sequence, optional
leave event. -/
structure ScopeData where
  parent : Option Nat
  children : List Nat
  leaveEvent : Option Event
  deriving DecidableEq, Repr

/-- The full state of one `wtf.analysis.db.ZoneIndex` instance, including
the underlying `EventList` storage (`events`) and the heap of scope
objects / event-scope associations it mutates. -/
structure ZoneIndexState where
  zone : Nat
  scopeLeaveType : Nat
  events : List Event
  currentScope : Option Nat
  lastAddEventTime : Nat
  pendingOutOfOrderEvents : List Event
  scopes : Nat → ScopeData
  eventScope : Nat → Option (Option Nat)

/-- Pointwise write of one scope object in the heap. -/
def setScopeData (s : ZoneIndexState) (sid : Nat) (d : ScopeData) :
    ZoneIndexState :=
  { s with scopes := fun i => if i = sid then d else s.scopes i }

/-- Modelled from the spec: `wtf.analysis.Scope.prototype.addChild` is not
under src/. Spec section 4.2: "appends `scope` to this scope's child
sequence and sets its parent back-reference". -/
def addChild (s : ZoneIndexState) (parentId childId : Nat) : ZoneIndexState :=
  let s1 := setScopeData s parentId
    { s.scopes parentId with children := (s.scopes parentId).children ++ [childId] }
  setScopeData s1 childId { s1.scopes childId with parent := some parentId }

/-- Modelled from the spec: `wtf.analysis.Scope.prototype.setLeaveEvent` is
not under src/. Spec section 4.2: "records the closing event for this
scope ... a second call silently overwrites". -/
def setLeaveEvent (s : ZoneIndexState) (sid : Nat) (e : Event) :
    ZoneIndexState :=
  setScopeData s sid { s.scopes sid with leaveEvent := some e }

/-- Modelled from the spec: `wtf.analysis.Event.prototype.setScope` is not
under src/. Spec section 3: Event has "a mutable `scope` association set by
the index". Records the association (possibly null) for event `e`. -/
def setEventScope (s : ZoneIndexState) (e : Event) (v : Option Nat) :
    ZoneIndexState :=
  { s with eventScope := fun i => if i = e.eid then some v else s.eventScope i }

/-- Modelled from the spec: `wtf.analysis.db.EventList.prototype.getLastEventTime`
is not under src/. Spec sections 4.1 and 4.3: "last time present before the
current batch started" / "the current last event time of the underlying
list". Modelled as the maximum time in the stored list (0 when empty). -/
def getLastEventTime (s : ZoneIndexState) : Nat :=
  s.events.foldl (fun m e => max m e.time) 0

/-- Is some event with this id currently deferred in the pending list? -/
def isPendingEid (s : ZoneIndexState) (eid : Nat) : Bool :=
  s.pendingOutOfOrderEvents.any (fun p => p.eid == eid)

/-- Does the committed scope-enter event `e` open a scope whose time span
contains `t` (span end taken as infinity while the scope has no leave
event)? -/
def enclosesTime (s : ZoneIndexState) (e : Event) (t : Nat) : Bool :=
  match e.scopeRef with
  | none => false
  | some sid =>
    decide (e.time ≤ t) &&
      (match (s.scopes sid).leaveEvent with
       | none => true
       | some l => decide (t ≤ l.time))

/-- Modelled from the spec: `wtf.analysis.db.EventList.prototype.findEnclosingScope`
is not under src/. Spec section 4.3 (endInserting): "find the scope that
structurally encloses this event's timestamp within already-committed zone
data (a lookup by time against the already-finalized tree, not the local
cursor)". Modelled as the innermost committed scope whose span contains
`t`: among scope-enter events stored in the list that are not themselves
still deferred (deferred events are not yet part of the finalized tree),
the one with the greatest enter time whose span contains `t`. -/
def findEnclosingScope (s : ZoneIndexState) (t : Nat) : Option Nat :=
  (s.events.foldl
    (fun best e =>
      if enclosesTime s e t && !(isPendingEid s e.eid) then
        match best with
        | none => some e
        | some b => if decide (b.time ≤ e.time) then some e else some b
      else best)
    none).bind Event.scopeRef

/-- The state of a freshly constructed `ZoneIndex`
(src/src/wtf/analysis/db/zoneindex.js lines 29-75): the zone, the cached
`wtf.scope.leave` event-type identifier, `currentScope_ = null`,
`lastAddEventTime_ = 0`, empty pending list. The base `EventList` storage
is modelled as an empty list, and every scope id maps to a fresh scope
object (spec section 3: freshly created scopes have no parent, no
children, and no leave event). -/
def newZoneIndex (zone scopeLeaveType : Nat) : ZoneIndexState :=
  { zone := zone
    scopeLeaveType := scopeLeaveType
    events := []
    currentScope := none
    lastAddEventTime := 0
    pendingOutOfOrderEvents := []
    scopes := fun _ => { parent := none, children := [], leaveEvent := none }
    eventScope := fun _ => none }

/-- `ZoneIndex.prototype.beginInserting`
(src/src/wtf/analysis/db/zoneindex.js lines 91-95): delegate to the base
`EventList.beginInserting` (modelled from the spec as having no observable
effect on the state components modelled here), reset `currentScope_` to
null, and set `lastAddEventTime_` to `getLastEventTime()`. -/
def beginInserting (s : ZoneIndexState) : ZoneIndexState :=
  { s with currentScope := none, lastAddEventTime := getLastEventTime s }

/-- The in-order classification branch of `ZoneIndex.prototype.insertEvent`
(src/src/wtf/analysis/db/zoneindex.js lines 110-132): update
`lastAddEventTime_`, then classify as scope-enter (`instanceof ScopeEvent`),
scope-leave (`eventType == eventTypes_.scopeLeave`), or leaf. -/
def processInOrder (s : ZoneIndexState) (e : Event) : ZoneIndexState :=
  let s1 : ZoneIndexState := { s with lastAddEventTime := e.time }
  match e.scopeRef with
  | some sid =>
    let s2 :=
      match s1.currentScope with
      | some cur => addChild s1 cur sid
      | none => s1
    { s2 with currentScope := some sid }
  | none =>
    if e.eventType = s1.scopeLeaveType then
      let s2 := setEventScope s1 e s1.currentScope
      match s1.currentScope with
      | some cur =>
        let s3 := setLeaveEvent s2 cur e
        { s3 with currentScope := (s3.scopes cur).parent }
      | none => s2
    else
      match s1.currentScope with
      | some cur => setEventScope s1 e (some cur)
      | none => s1

/-- `ZoneIndex.prototype.insertEvent`
(src/src/wtf/analysis/db/zoneindex.js lines 101-140): everything is guarded
by `e.zone == this.zone_`; an event with `e.time < lastAddEventTime_` is
deferred onto `pendingOutOfOrderEvents_`, otherwise it is classified
in-order; in both cases the base `EventList.insertEvent` is then invoked
(modelled from the spec section 4.1 as appending `e` to the stored list). -/
def insertEvent (s : ZoneIndexState) (e : Event) : ZoneIndexState :=
  if e.zone = s.zone then
    let s1 :=
      if e.time < s.lastAddEventTime then
        { s with pendingOutOfOrderEvents := s.pendingOutOfOrderEvents ++ [e] }
      else
        processInOrder s e
    { s1 with events := s1.events ++ [e] }
  else
    s

/-- The reconciliation loop of `ZoneIndex.prototype.endInserting`
(src/src/wtf/analysis/db/zoneindex.js lines 151-170): drain the deferred
events in order with a local cursor; a scope-enter is attached under
`findEnclosingScope(e.time)` when found and becomes the cursor; a
scope-leave is associated with the cursor and, when the cursor is set,
recorded as its leave event and the cursor cleared; anything else is
associated with the cursor. -/
def processPending (s : ZoneIndexState) (cursor : Option Nat) :
    List Event → ZoneIndexState
  | [] => s
  | e :: rest =>
    match e.scopeRef with
    | some sid =>
      let s1 :=
        match findEnclosingScope s e.time with
        | some p => addChild s p sid
        | none => s
      processPending s1 (some sid) rest
    | none =>
      if e.eventType = s.scopeLeaveType then
        let s1 := setEventScope s e cursor
        match cursor with
        | some cur => processPending (setLeaveEvent s1 cur e) none rest
        | none => processPending s1 none rest
      else
        processPending (setEventScope s e cursor) cursor rest

/-- `ZoneIndex.prototype.endInserting`
(src/src/wtf/analysis/db/zoneindex.js lines 146-174): reset `currentScope_`
to null, drain `pendingOutOfOrderEvents_` with the reconciliation loop,
clear the pending list, and delegate to the base `EventList.endInserting`
(modelled from the spec as having no observable effect on the state
components modelled here). -/
def endInserting (s : ZoneIndexState) : ZoneIndexState :=
  let s0 : ZoneIndexState := { s with currentScope := none }
  let s1 := processPending s0 none s0.pendingOutOfOrderEvents
  { s1 with pendingOutOfOrderEvents := [] }

/-- One complete batch (spec section 5: `beginInserting` / `insertEvent`* /
`endInserting`, strictly in that order). -/
def runBatch (s : ZoneIndexState) (es : List Event) : ZoneIndexState :=
  endInserting (es.foldl insertEvent (beginInserting s))

/-! ### Frame lemmas for the heap-mutating helpers -/

@[simp] theorem setScopeData_zone (s : ZoneIndexState) (sid : Nat) (d : ScopeData) :
    (setScopeData s sid d).zone = s.zone := rfl

@[simp] theorem setScopeData_scopeLeaveType (s : ZoneIndexState) (sid : Nat) (d : ScopeData) :
    (setScopeData s sid d).scopeLeaveType = s.scopeLeaveType := rfl

@[simp] theorem setScopeData_events (s : ZoneIndexState) (sid : Nat) (d : ScopeData) :
    (setScopeData s sid d).events = s.events := rfl

@[simp] theorem setScopeData_currentScope (s : ZoneIndexState) (sid : Nat) (d : ScopeData) :
    (setScopeData s sid d).currentScope = s.currentScope := rfl

@[simp] theorem setScopeData_lastAddEventTime (s : ZoneIndexState) (sid : Nat) (d : ScopeData) :
    (setScopeData s sid d).lastAddEventTime = s.lastAddEventTime := rfl

@[simp] theorem setScopeData_pending (s : ZoneIndexState) (sid : Nat) (d : ScopeData) :
    (setScopeData s sid d).pendingOutOfOrderEvents = s.pendingOutOfOrderEvents := rfl

@[simp] theorem setScopeData_eventScope (s : ZoneIndexState) (sid : Nat) (d : ScopeData) :
    (setScopeData s sid d).eventScope = s.eventScope := rfl

@[simp] theorem setScopeData_scopes (s : ZoneIndexState) (sid : Nat) (d : ScopeData) (i : Nat) :
    (setScopeData s sid d).scopes i = if i = sid then d else s.scopes i := rfl

@[simp] theorem addChild_zone (s : ZoneIndexState) (p c : Nat) :
    (addChild s p c).zone = s.zone := rfl

@[simp] theorem addChild_scopeLeaveType (s : ZoneIndexState) (p c : Nat) :
    (addChild s p c).scopeLeaveType = s.scopeLeaveType := rfl

@[simp] theorem addChild_events (s : ZoneIndexState) (p c : Nat) :
    (addChild s p c).events = s.events := rfl

@[simp] theorem addChild_currentScope (s : ZoneIndexState) (p c : Nat) :
    (addChild s p c).currentScope = s.currentScope := rfl

@[simp] theorem addChild_lastAddEventTime (s : ZoneIndexState) (p c : Nat) :
    (addChild s p c).lastAddEventTime = s.lastAddEventTime := rfl

@[simp] theorem addChild_pending (s : ZoneIndexState) (p c : Nat) :
    (addChild s p c).pendingOutOfOrderEvents = s.pendingOutOfOrderEvents := rfl

@[simp] theorem addChild_eventScope (s : ZoneIndexState) (p c : Nat) :
    (addChild s p c).eventScope = s.eventScope := rfl

@[simp] theorem setLeaveEvent_zone (s : ZoneIndexState) (sid : Nat) (e : Event) :
    (setLeaveEvent s sid e).zone = s.zone := rfl

@[simp] theorem setLeaveEvent_scopeLeaveType (s : ZoneIndexState) (sid : Nat) (e : Event) :
    (setLeaveEvent s sid e).scopeLeaveType = s.scopeLeaveType := rfl

@[simp] theorem setLeaveEvent_events (s : ZoneIndexState) (sid : Nat) (e : Event) :
    (setLeaveEvent s sid e).events = s.events := rfl

@[simp] theorem setLeaveEvent_currentScope (s : ZoneIndexState) (sid : Nat) (e : Event) :
    (setLeaveEvent s sid e).currentScope = s.currentScope := rfl

@[simp] theorem setLeaveEvent_lastAddEventTime (s : ZoneIndexState) (sid : Nat) (e : Event) :
    (setLeaveEvent s sid e).lastAddEventTime = s.lastAddEventTime := rfl

@[simp] theorem setLeaveEvent_pending (s : ZoneIndexState) (sid : Nat) (e : Event) :
    (setLeaveEvent s sid e).pendingOutOfOrderEvents = s.pendingOutOfOrderEvents := rfl

@[simp] theorem setLeaveEvent_eventScope (s : ZoneIndexState) (sid : Nat) (e : Event) :
    (setLeaveEvent s sid e).eventScope = s.eventScope := rfl

@[simp] theorem setLeaveEvent_scopes (s : ZoneIndexState) (sid : Nat) (e : Event) (i : Nat) :
    (setLeaveEvent s sid e).scopes i =
      if i = sid then { s.scopes sid with leaveEvent := some e } else s.scopes i := rfl

@[simp] theorem setEventScope_zone (s : ZoneIndexState) (e : Event) (v : Option Nat) :
    (setEventScope s e v).zone = s.zone := rfl

@[simp] theorem setEventScope_scopeLeaveType (s : ZoneIndexState) (e : Event) (v : Option Nat) :
    (setEventScope s e v).scopeLeaveType = s.scopeLeaveType := rfl

@[simp] theorem setEventScope_events (s : ZoneIndexState) (e : Event) (v : Option Nat) :
    (setEventScope s e v).events = s.events := rfl

@[simp] theorem setEventScope_currentScope (s : ZoneIndexState) (e : Event) (v : Option Nat) :
    (setEventScope s e v).currentScope = s.currentScope := rfl

@[simp] theorem setEventScope_lastAddEventTime (s : ZoneIndexState) (e : Event) (v : Option Nat) :
    (setEventScope s e v).lastAddEventTime = s.lastAddEventTime := rfl

@[simp] theorem setEventScope_pending (s : ZoneIndexState) (e : Event) (v : Option Nat) :
    (setEventScope s e v).pendingOutOfOrderEvents = s.pendingOutOfOrderEvents := rfl

@[simp] theorem setEventScope_scopes (s : ZoneIndexState) (e : Event) (v : Option Nat) :
    (setEventScope s e v).scopes = s.scopes := rfl

@[simp] theorem setEventScope_eventScope_apply (s : ZoneIndexState) (e : Event)
    (v : Option Nat) (i : Nat) :
    (setEventScope s e v).eventScope i = if i = e.eid then some v else s.eventScope i := rfl

/-! ### Frame lemmas for the classification branches -/

theorem processInOrder_events (s : ZoneIndexState) (e : Event) :
    (processInOrder s e).events = s.events := by
  unfold processInOrder
  rcases e with ⟨eid, z, t, ty, _ | sid⟩ <;> dsimp only <;>
    repeat' first | split | rfl

theorem processInOrder_pending (s : ZoneIndexState) (e : Event) :
    (processInOrder s e).pendingOutOfOrderEvents = s.pendingOutOfOrderEvents := by
  unfold processInOrder
  rcases e with ⟨eid, z, t, ty, _ | sid⟩ <;> dsimp only <;>
    repeat' first | split | rfl

theorem processInOrder_zone (s : ZoneIndexState) (e : Event) :
    (processInOrder s e).zone = s.zone := by
  unfold processInOrder
  rcases e with ⟨eid, z, t, ty, _ | sid⟩ <;> dsimp only <;>
    repeat' first | split | rfl

theorem processInOrder_scopeLeaveType (s : ZoneIndexState) (e : Event) :
    (processInOrder s e).scopeLeaveType = s.scopeLeaveType := by
  unfold processInOrder
  rcases e with ⟨eid, z, t, ty, _ | sid⟩ <;> dsimp only <;>
    repeat' first | split | rfl

@[simp] theorem insertEvent_zone (s : ZoneIndexState) (e : Event) :
    (insertEvent s e).zone = s.zone := by
  unfold insertEvent
  split
  · split <;> simp [processInOrder_zone]
  · rfl

@[simp] theorem insertEvent_scopeLeaveType (s : ZoneIndexState) (e : Event) :
    (insertEvent s e).scopeLeaveType = s.scopeLeaveType := by
  unfold insertEvent
  split
  · split <;> simp [processInOrder_scopeLeaveType]
  · rfl

theorem insertEvent_other_zone (s : ZoneIndexState) (e : Event)
    (h : e.zone ≠ s.zone) : insertEvent s e = s := by
  unfold insertEvent
  simp [h]

theorem insertEvent_events (s : ZoneIndexState) (e : Event) :
    (insertEvent s e).events =
      if e.zone = s.zone then s.events ++ [e] else s.events := by
  unfold insertEvent
  split
  · split <;> simp [processInOrder_events]
  · simp

theorem processPending_frame (l : List Event) :
    ∀ (s : ZoneIndexState) (c : Option Nat),
      (processPending s c l).events = s.events ∧
      (processPending s c l).pendingOutOfOrderEvents = s.pendingOutOfOrderEvents ∧
      (processPending s c l).currentScope = s.currentScope ∧
      (processPending s c l).zone = s.zone ∧
      (processPending s c l).scopeLeaveType = s.scopeLeaveType ∧
      (processPending s c l).lastAddEventTime = s.lastAddEventTime := by
  induction l with
  | nil => intro s c; exact ⟨rfl, rfl, rfl, rfl, rfl, rfl⟩
  | cons e rest ih =>
    intro s c
    unfold processPending
    rcases e with ⟨eid, z, t, ty, _ | sid⟩ <;> dsimp only
    · split
      · rcases c with _ | cur <;> dsimp only <;>
          simpa using ih _ _
      · simpa using ih _ _
    · split <;> simpa using ih _ _

theorem endInserting_events (s : ZoneIndexState) :
    (endInserting s).events = s.events := by
  unfold endInserting
  simpa using (processPending_frame s.pendingOutOfOrderEvents _ none).1

@[simp] theorem endInserting_pending (s : ZoneIndexState) :
    (endInserting s).pendingOutOfOrderEvents = [] := rfl

theorem endInserting_currentScope (s : ZoneIndexState) :
    (endInserting s).currentScope = none := by
  unfold endInserting
  simpa using (processPending_frame s.pendingOutOfOrderEvents _ none).2.2.1

/-! ### Concrete scenario data

An index for zone 0 whose cached `wtf.scope.leave` identifier is 9, and the
events of the concrete scenarios from the specification. Scope A is the heap
object 10, scope B is the heap object 20. -/

def zi : ZoneIndexState := newZoneIndex 0 9

/-- enter(t=0, A): scope-enter event opening scope A (id 10). -/
def evEnterA : Event := ⟨1, 0, 0, 0, some 10⟩

/-- enter(t=5, B): scope-enter event opening scope B (id 20). -/
def evEnterB : Event := ⟨2, 0, 5, 0, some 20⟩

/-- leave(t=2): scope-leave event, out of order once time 5 was reached. -/
def evLeave2 : Event := ⟨3, 0, 2, 9, none⟩

/-- leave(t=10): scope-leave event closing A in the C2 scenario. -/
def evLeaveA10 : Event := ⟨2, 0, 10, 9, none⟩

/-- leaf(t=5): a plain event (event type 7 is neither a scope event nor the
leave type 9). -/
def evLeaf5 : Event := ⟨3, 0, 5, 7, none⟩

/-! ### Claims -/

/-- C1, counterexample: in the batch [enter(t=0,A), enter(t=5,B), leave(t=2)]
for the index's own zone, the leave at t=2 is indeed deferred (first
conjunct), but at `endInserting` it is NOT resolved against the structurally
enclosing scope A: after the batch A (scope 10) has no leave event and the
leave is associated with no scope at all. -/
theorem c1_counterexample :
    (([evEnterA, evEnterB, evLeave2].foldl insertEvent
        (beginInserting zi)).pendingOutOfOrderEvents = [evLeave2]) ∧
    ((runBatch zi [evEnterA, evEnterB, evLeave2]).scopes 10).leaveEvent = none ∧
    (runBatch zi [evEnterA, evEnterB, evLeave2]).eventScope 3 = some none := by
  decide

/-- C1 (amended): for the batch [enter(t=0,A), enter(t=5,B), leave(t=2)]
inserted for the index's own zone, the leave at t=2 is deferred to
`pendingOutOfOrderEvents` during `insertEvent`, and during `endInserting` it
is resolved against the local reconciliation cursor, which is null because
no deferred scope-enter precedes it; it is therefore associated with no
scope, and neither A nor B receives it as its leave event, although all
three events are stored in the underlying event list. -/
theorem c1_amended_deferred_leave_unassociated :
    (([evEnterA, evEnterB, evLeave2].foldl insertEvent
        (beginInserting zi)).pendingOutOfOrderEvents = [evLeave2]) ∧
    (runBatch zi [evEnterA, evEnterB, evLeave2]).eventScope 3 = some none ∧
    ((runBatch zi [evEnterA, evEnterB, evLeave2]).scopes 10).leaveEvent = none ∧
    ((runBatch zi [evEnterA, evEnterB, evLeave2]).scopes 20).leaveEvent = none ∧
    (runBatch zi [evEnterA, evEnterB, evLeave2]).events
      = [evEnterA, evEnterB, evLeave2] := by
  decide

/-- C3, counterexample: for an event whose zone (5) differs from the index's
zone (0), `insertEvent` does not invoke the base `EventList.insertEvent`:
nothing is appended to the underlying storage (the base insert, had it been
invoked, would have appended the event). -/
theorem c3_counterexample :
    (insertEvent (newZoneIndex 0 9) ⟨1, 5, 3, 0, none⟩).events = [] := by
  decide

/-- C3 (amended): `beginInserting` and `endInserting` always delegate to the
base `EventList` operation, but `insertEvent(e)` invokes the base
`EventList.insertEvent` (which appends `e` to the underlying storage)
exactly when `e.zone` equals the index's zone; for an event of any other
zone the call leaves the whole index state unchanged. -/
theorem insertEvent_base_delegation (s : ZoneIndexState) (e : Event) :
    (insertEvent s e).events
        = (if e.zone = s.zone then s.events ++ [e] else s.events) ∧
    (e.zone ≠ s.zone → insertEvent s e = s) :=
  ⟨insertEvent_events s e, insertEvent_other_zone s e⟩

/-- Witness for C3 (amended) at concrete inputs: a zone-0 event is appended
by the base insert, a zone-5 event leaves the index untouched. -/
theorem insertEvent_base_delegation_witness :
    (insertEvent (newZoneIndex 0 9) ⟨1, 0, 4, 0, none⟩).events
        = [⟨1, 0, 4, 0, none⟩] ∧
    insertEvent (newZoneIndex 0 9) ⟨2, 5, 4, 0, none⟩ = newZoneIndex 0 9 := by
  constructor
  · have h := (insertEvent_base_delegation (newZoneIndex 0 9) ⟨1, 0, 4, 0, none⟩).1
    simpa using h
  · exact (insertEvent_base_delegation (newZoneIndex 0 9) ⟨2, 5, 4, 0, none⟩).2
      (by decide)

/-- C4: inserting any sequence of events whose zones all differ from the
index's zone is a complete no-op on the index state: the event count,
`currentScope`, `lastAddEventTime`, `pendingOutOfOrderEvents`, the scope
heap and every event-scope association are unchanged, and repeating such
insertions any number of times is still a no-op. -/
theorem insertEvent_other_zone_noop (s : ZoneIndexState) (es : List Event)
    (h : ∀ e ∈ es, e.zone ≠ s.zone) :
    es.foldl insertEvent s = s := by
  induction es with
  | nil => rfl
  | cons e rest ih =>
    have he : insertEvent s e = s := insertEvent_other_zone s e (h e (by simp))
    simp only [List.foldl_cons, he]
    exact ih fun e' he' => h e' (by simp [he'])

/-- Witness for C4 at concrete inputs: two events of zones 3 and 4 inserted
into the zone-0 index leave it exactly as constructed. -/
theorem insertEvent_other_zone_noop_witness :
    [(⟨1, 3, 0, 0, none⟩ : Event), ⟨2, 4, 7, 9, some 5⟩].foldl insertEvent
        (newZoneIndex 0 9) = newZoneIndex 0 9 :=
  insertEvent_other_zone_noop (newZoneIndex 0 9)
    [⟨1, 3, 0, 0, none⟩, ⟨2, 4, 7, 9, some 5⟩] (by decide)

/-- C8: the out-of-order test is strict: an event of the index's zone whose
time is exactly equal to `lastAddEventTime` is processed in-order (it is
classified immediately against `currentScope` by the in-order branch and
appended by the base insert), and the pending out-of-order list is left
unchanged. -/
theorem insertEvent_equal_time_in_order (s : ZoneIndexState) (e : Event)
    (hz : e.zone = s.zone) (ht : e.time = s.lastAddEventTime) :
    insertEvent s e
        = { processInOrder s e with
            events := (processInOrder s e).events ++ [e] } ∧
    (insertEvent s e).pendingOutOfOrderEvents = s.pendingOutOfOrderEvents := by
  have hlt : ¬ e.time < s.lastAddEventTime := by omega
  constructor
  · unfold insertEvent
    simp [hz, hlt]
  · unfold insertEvent
    simp [hz, hlt, processInOrder_pending]

/-- Witness for C8 at concrete inputs: a zone-0 leaf event at time 0, equal
to the fresh index's `lastAddEventTime`, is processed in-order and defers
nothing. -/
theorem insertEvent_equal_time_in_order_witness :
    insertEvent (newZoneIndex 0 9) ⟨1, 0, 0, 7, none⟩
        = { processInOrder (newZoneIndex 0 9) ⟨1, 0, 0, 7, none⟩ with
            events := (processInOrder (newZoneIndex 0 9)
              ⟨1, 0, 0, 7, none⟩).events ++ [⟨1, 0, 0, 7, none⟩] } ∧
    (insertEvent (newZoneIndex 0 9)
        ⟨1, 0, 0, 7, none⟩).pendingOutOfOrderEvents = [] :=
  insertEvent_equal_time_in_order (newZoneIndex 0 9) ⟨1, 0, 0, 7, none⟩ rfl rfl

/-- C9: deferring an out-of-order event of the index's zone only appends it
to `pendingOutOfOrderEvents` and to the underlying storage: in particular
`lastAddEventTime` and `currentScope` (and the scope heap and all
event-scope associations) are exactly as before the call. -/
theorem insertEvent_out_of_order_defer (s : ZoneIndexState) (e : Event)
    (hz : e.zone = s.zone) (ht : e.time < s.lastAddEventTime) :
    insertEvent s e
        = { s with
            pendingOutOfOrderEvents := s.pendingOutOfOrderEvents ++ [e],
            events := s.events ++ [e] } := by
  unfold insertEvent
  simp [hz, ht]

/-- Witness for C9 at concrete inputs: after an in-order event at time 5,
an event at time 3 is deferred and nothing else changes. -/
theorem insertEvent_out_of_order_defer_witness :
    insertEvent (insertEvent (beginInserting zi) ⟨1, 0, 5, 7, none⟩)
        ⟨2, 0, 3, 7, none⟩
      = { insertEvent (beginInserting zi) ⟨1, 0, 5, 7, none⟩ with
          pendingOutOfOrderEvents :=
            (insertEvent (beginInserting zi)
              ⟨1, 0, 5, 7, none⟩).pendingOutOfOrderEvents ++ [⟨2, 0, 3, 7, none⟩],
          events := (insertEvent (beginInserting zi)
            ⟨1, 0, 5, 7, none⟩).events ++ [⟨2, 0, 3, 7, none⟩] } :=
  insertEvent_out_of_order_defer
    (insertEvent (beginInserting zi) ⟨1, 0, 5, 7, none⟩)
    ⟨2, 0, 3, 7, none⟩ (by decide) (by decide)

/-- C6, counterexample: an unmatched in-order scope-leave (no open scope)
does change the behaviour of subsequent insertions. With the leave at t=10
present, a following enter at t=5 is classified out of order and deferred;
without the leave it is processed in-order and opens its scope. The first
conjuncts show the leave really was unmatched (no open scope) and in-order. -/
theorem c6_counterexample :
    (beginInserting zi).currentScope = none ∧
    (insertEvent (beginInserting zi) ⟨1, 0, 10, 9, none⟩).eventScope 1
        = some none ∧
    (insertEvent (insertEvent (beginInserting zi) ⟨1, 0, 10, 9, none⟩)
        ⟨2, 0, 5, 0, some 10⟩).pendingOutOfOrderEvents = [⟨2, 0, 5, 0, some 10⟩] ∧
    (insertEvent (insertEvent (beginInserting zi) ⟨1, 0, 10, 9, none⟩)
        ⟨2, 0, 5, 0, some 10⟩).currentScope = none ∧
    (insertEvent (beginInserting zi)
        ⟨2, 0, 5, 0, some 10⟩).pendingOutOfOrderEvents = [] ∧
    (insertEvent (beginInserting zi) ⟨2, 0, 5, 0, some 10⟩).currentScope
        = some 10 := by
  decide

/-- C6 (amended): for an in-order scope-leave event of the index's zone
inserted while no scope is open, the event is appended to the underlying
EventList, its scope association is set to null, no scope object is touched
(in particular no scope's leave event is modified), `currentScope` and the
pending list are unchanged, and the only other state change is that
`lastAddEventTime` advances to the event's time — so subsequent insertions
behave as if the leave had not occurred except that events older than its
timestamp are now classified out of order. -/
theorem unmatched_leave_tolerated (s : ZoneIndexState) (e : Event)
    (hz : e.zone = s.zone) (hcur : s.currentScope = none)
    (hsr : e.scopeRef = none) (hty : e.eventType = s.scopeLeaveType)
    (ht : s.lastAddEventTime ≤ e.time) :
    insertEvent s e
        = { s with
            events := s.events ++ [e],
            lastAddEventTime := e.time,
            eventScope := fun i =>
              if i = e.eid then some none else s.eventScope i } := by
  have hlt : ¬ e.time < s.lastAddEventTime := by omega
  unfold insertEvent processInOrder setEventScope
  simp [hz, hlt, hsr, hty, hcur]

/-- Witness for C6 (amended) at concrete inputs: the unmatched leave at
t=10 in the empty zone-0 index. -/
theorem unmatched_leave_tolerated_witness :
    insertEvent (beginInserting zi) ⟨1, 0, 10, 9, none⟩
        = { beginInserting zi with
            events := (beginInserting zi).events ++ [⟨1, 0, 10, 9, none⟩],
            lastAddEventTime := 10,
            eventScope := fun i =>
              if i = 1 then some none else (beginInserting zi).eventScope i } :=
  unmatched_leave_tolerated (beginInserting zi) ⟨1, 0, 10, 9, none⟩
    rfl rfl rfl rfl (by decide)

/-- The events stored by a fold of `insertEvent` are the old ones followed
by the zone-matching inserted ones, in order. -/
theorem foldl_insertEvent_events (es : List Event) :
    ∀ s : ZoneIndexState,
      (es.foldl insertEvent s).events
        = s.events ++ es.filter (fun e => e.zone == s.zone) := by
  induction es with
  | nil => intro s; simp
  | cons e rest ih =>
    intro s
    simp only [List.foldl_cons]
    rw [ih, insertEvent_events]
    by_cases h : e.zone = s.zone
    · simp [h, List.filter_cons, List.append_assoc]
    · simp [h, List.filter_cons]

/-- C7: after every completed batch, `pendingOutOfOrderEvents` is empty,
`currentScope` is null, and the underlying EventList holds exactly the old
events followed by the zone-matching events of the batch; in particular
every event of the index's zone occurs in the list exactly the number of
times it was inserted (once more per insertion). -/
theorem batch_end_invariants (s : ZoneIndexState) (es : List Event) :
    (runBatch s es).pendingOutOfOrderEvents = [] ∧
    (runBatch s es).currentScope = none ∧
    (runBatch s es).events
        = s.events ++ es.filter (fun e => e.zone == s.zone) ∧
    (∀ e : Event, e.zone = s.zone →
      (runBatch s es).events.count e = s.events.count e + es.count e) := by
  have hev : (runBatch s es).events
      = s.events ++ es.filter (fun e => e.zone == s.zone) := by
    unfold runBatch
    rw [endInserting_events, foldl_insertEvent_events]
    rfl
  refine ⟨endInserting_pending _, endInserting_currentScope _, hev, ?_⟩
  intro e he
  rw [hev, List.count_append, List.count_filter (by simp [he])]

/-- Witness for C7 at a concrete batch: the C1 scenario batch ends with an
empty pending list, no current scope, all three events stored, and the
deferred leave counted exactly once. -/
theorem batch_end_invariants_witness :
    (runBatch zi [evEnterA, evEnterB, evLeave2]).pendingOutOfOrderEvents = [] ∧
    (runBatch zi [evEnterA, evEnterB, evLeave2]).currentScope = none ∧
    (runBatch zi [evEnterA, evEnterB, evLeave2]).events
        = zi.events ++ [evEnterA, evEnterB, evLeave2].filter
            (fun e => e.zone == zi.zone) ∧
    (runBatch zi [evEnterA, evEnterB, evLeave2]).events.count evLeave2
        = zi.events.count evLeave2
            + [evEnterA, evEnterB, evLeave2].count evLeave2 := by
  have h := batch_end_invariants zi [evEnterA, evEnterB, evLeave2]
  exact ⟨h.1, h.2.1, h.2.2.1, h.2.2.2 evLeave2 (by decide)⟩

theorem endInserting_eq (s : ZoneIndexState) :
    endInserting s
      = { processPending { s with currentScope := none } none
            s.pendingOutOfOrderEvents with
          pendingOutOfOrderEvents := [] } := rfl

/-- C2, counterexample: in the batch [enter(t=0,A), leave(t=10) closing A,
leaf(t=5)], the leaf at t=5 is the batch's only out-of-order event (first
conjunct) and scope A (id 10, span [0,10]) encloses time 5 in the committed
tree (second conjunct), yet after `endInserting` the leaf is associated with
no scope instead of being attached to A. -/
theorem c2_counterexample :
    (([evEnterA, evLeaveA10, evLeaf5].foldl insertEvent
        (beginInserting zi)).pendingOutOfOrderEvents = [evLeaf5]) ∧
    findEnclosingScope (runBatch zi [evEnterA, evLeaveA10, evLeaf5]) 5
        = some 10 ∧
    (runBatch zi [evEnterA, evLeaveA10, evLeaf5]).eventScope 3 = some none := by
  decide

/-- C2 (amended): for every batch whose single deferred event is `e` (the
one event of the index's zone with timestamp below the running maximum): if
`e` is a scope-enter event, its scope is attached as a child of the scope
found by `findEnclosingScope` at `e.time` when one is found, and is attached
nowhere (the whole scope heap is untouched) when none is found; if `e` is a
scope-leave or leaf event, `e` is associated with no scope (its scope is set
to null), because the reconciliation pass only consults its local cursor,
which is null when no deferred scope-enter precedes `e`. -/
theorem single_deferred_event_resolution (s : ZoneIndexState)
    (es : List Event) (e : Event)
    (hpend : (es.foldl insertEvent
        (beginInserting s)).pendingOutOfOrderEvents = [e]) :
    (∀ sid p, e.scopeRef = some sid →
      findEnclosingScope
          { es.foldl insertEvent (beginInserting s) with currentScope := none }
          e.time = some p →
      sid ∈ ((runBatch s es).scopes p).children ∧
      ((runBatch s es).scopes sid).parent = some p) ∧
    (∀ sid, e.scopeRef = some sid →
      findEnclosingScope
          { es.foldl insertEvent (beginInserting s) with currentScope := none }
          e.time = none →
      (runBatch s es).scopes
        = (es.foldl insertEvent (beginInserting s)).scopes) ∧
    (e.scopeRef = none → (runBatch s es).eventScope e.eid = some none) := by
  have hs0 : ({ es.foldl insertEvent (beginInserting s) with
        currentScope := none } : ZoneIndexState)
      = { es.foldl insertEvent (beginInserting s) with
          currentScope := none, pendingOutOfOrderEvents := [e] } := by
    rw [← hpend]
  have hrun : runBatch s es
      = { processPending
            { es.foldl insertEvent (beginInserting s) with
              currentScope := none, pendingOutOfOrderEvents := [e] }
            none [e] with
          pendingOutOfOrderEvents := [] } := by
    unfold runBatch
    rw [endInserting_eq, hpend]
  refine ⟨?_, ?_, ?_⟩
  · intro sid p hsr hfind
    rw [hs0] at hfind
    rw [hrun]
    simp only [processPending, hsr, hfind]
    by_cases hps : p = sid
    · subst hps
      simp [addChild, setScopeData]
    · simp [addChild, setScopeData, hps]
  · intro sid hsr hfind
    rw [hs0] at hfind
    rw [hrun]
    simp only [processPending, hsr, hfind]
  · intro hsr
    rw [hrun]
    simp only [processPending, hsr]
    by_cases hty : e.eventType
        = ({ es.foldl insertEvent (beginInserting s) with
              currentScope := none,
              pendingOutOfOrderEvents := [e] } : ZoneIndexState).scopeLeaveType
    · simp [hty, setEventScope]
    · simp [hty, setEventScope]

/-- Witness for C2 (amended) at the concrete C2 scenario: the deferred leaf
at t=5 ends associated with no scope. -/
theorem single_deferred_event_resolution_witness :
    (runBatch zi [evEnterA, evLeaveA10, evLeaf5]).eventScope 3 = some none :=
  (single_deferred_event_resolution zi [evEnterA, evLeaveA10, evLeaf5]
      evLeaf5 (by decide)).2.2 rfl

/-- The reconciliation loop never touches the scope association of an event
whose id is not among the processed events. -/
theorem processPending_eventScope_untouched (l : List Event) :
    ∀ (s : ZoneIndexState) (c : Option Nat) (i : Nat),
      (∀ e ∈ l, e.eid ≠ i) →
      (processPending s c l).eventScope i = s.eventScope i := by
  induction l with
  | nil => intro s c i _; rfl
  | cons e rest ih =>
    intro s c i h
    have he : i ≠ e.eid := Ne.symm (h e (by simp))
    have hr : ∀ e' ∈ rest, e'.eid ≠ i := fun e' h' => h e' (by simp [h'])
    unfold processPending
    rcases e with ⟨eid, z, t, ty, _ | sid⟩ <;> dsimp only
    · dsimp only [Event.eid] at he
      split
      · rcases c with _ | cur <;>
          · dsimp only
            rw [ih _ _ _ hr]
            simp [setEventScope, he]
      · rw [ih _ _ _ hr]
        simp [setEventScope, he]
    · split <;>
        · rw [ih _ _ _ hr]
          try simp

/-- Behaviour of the reconciliation loop on a run consisting of leaf events
followed by one scope-leave while the local cursor points at `sid`: the
scope object `sid` keeps its parent, receives the leave as its leave event,
and every event of the run is associated with `sid`. -/
theorem drain_run (mids : List Event) :
    ∀ (s : ZoneIndexState) (sid : Nat) (efin : Event),
      (∀ m ∈ mids, m.scopeRef = none ∧ m.eventType ≠ s.scopeLeaveType) →
      efin.scopeRef = none → efin.eventType = s.scopeLeaveType →
      ((mids ++ [efin]).map Event.eid).Nodup →
      ((processPending s (some sid) (mids ++ [efin])).scopes sid).parent
          = (s.scopes sid).parent ∧
      ((processPending s (some sid) (mids ++ [efin])).scopes sid).leaveEvent
          = some efin ∧
      (∀ m ∈ mids,
        (processPending s (some sid) (mids ++ [efin])).eventScope m.eid
          = some (some sid)) ∧
      (processPending s (some sid) (mids ++ [efin])).eventScope efin.eid
          = some (some sid) := by
  induction mids with
  | nil =>
    intro s sid efin _ hfr hfty _
    simp only [List.nil_append]
    simp only [processPending, hfr, hfty, if_pos]
    refine ⟨by simp, by simp, by simp, by simp [setEventScope]⟩
  | cons m mids ih =>
    intro s sid efin hm hfr hfty hnd
    obtain ⟨hmsr, hmty⟩ := hm m (by simp)
    have hnd' : ((mids ++ [efin]).map Event.eid).Nodup := by
      simp only [List.cons_append, List.map_cons, List.nodup_cons] at hnd
      exact hnd.2
    have hnotin : ∀ e ∈ mids ++ [efin], e.eid ≠ m.eid := by
      simp only [List.cons_append, List.map_cons, List.nodup_cons] at hnd
      intro e hemem hcontra
      exact hnd.1 (by
        rw [← hcontra]
        exact List.mem_map_of_mem Event.eid hemem)
    have step : processPending s (some sid) ((m :: mids) ++ [efin])
        = processPending (setEventScope s m (some sid)) (some sid)
            (mids ++ [efin]) := by
      simp only [List.cons_append]
      simp only [processPending, hmsr, hmty, if_false]
    rw [step]
    have ihm := ih (setEventScope s m (some sid)) sid efin
      (fun m' hmem => ⟨(hm m' (by simp [hmem])).1,
        by simpa using (hm m' (by simp [hmem])).2⟩)
      hfr (by simpa using hfty) hnd'
    refine ⟨by simpa using ihm.1, ihm.2.1, ?_, ihm.2.2.2⟩
    intro m' hmem
    rcases List.mem_cons.mp hmem with hq | hq
    · subst hq
      rw [processPending_eventScope_untouched _ _ _ _ hnotin]
      simp [setEventScope]
    · exact ihm.2.2.1 m' hq

/-- C10: in the reconciliation pass of `endInserting`, a deferred
scope-enter event becomes the local cursor even when `findEnclosingScope`
finds no enclosing scope for its timestamp: its scope is attached nowhere
(its parent reference is unchanged), yet every immediately following
deferred leaf event is associated with that orphan scope, and a following
deferred scope-leave is associated with it as well and recorded as the
orphan scope's leave event. -/
theorem orphan_enter_becomes_cursor (s : ZoneIndexState) (c : Option Nat)
    (eEnter efin : Event) (mids : List Event) (sid : Nat)
    (hsr : eEnter.scopeRef = some sid)
    (hfind : findEnclosingScope s eEnter.time = none)
    (hmids : ∀ m ∈ mids, m.scopeRef = none ∧ m.eventType ≠ s.scopeLeaveType)
    (hfr : efin.scopeRef = none) (hfty : efin.eventType = s.scopeLeaveType)
    (hnd : ((mids ++ [efin]).map Event.eid).Nodup) :
    ((processPending s c (eEnter :: (mids ++ [efin]))).scopes sid).parent
        = (s.scopes sid).parent ∧
    (∀ m ∈ mids,
      (processPending s c (eEnter :: (mids ++ [efin]))).eventScope m.eid
        = some (some sid)) ∧
    (processPending s c (eEnter :: (mids ++ [efin]))).eventScope efin.eid
        = some (some sid) ∧
    ((processPending s c (eEnter :: (mids ++ [efin]))).scopes sid).leaveEvent
        = some efin := by
  have step : processPending s c (eEnter :: (mids ++ [efin]))
      = processPending s (some sid) (mids ++ [efin]) := by
    simp only [processPending, hsr, hfind]
  rw [step]
  have h := drain_run mids s sid efin hmids hfr hfty hnd
  exact ⟨h.1, h.2.2.1, h.2.2.2, h.2.1⟩

/-- Witness for C10 at concrete inputs: in an index with no committed
events, a deferred enter at t=5 (scope 10) finds no enclosing scope, stays
unattached, and the following leaf at t=6 and leave at t=7 are both
associated with scope 10, the leave becoming its leave event. -/
theorem orphan_enter_becomes_cursor_witness :
    ((processPending zi none
        [⟨1, 0, 5, 0, some 10⟩, ⟨2, 0, 6, 3, none⟩,
          ⟨3, 0, 7, 9, none⟩]).scopes 10).parent = (zi.scopes 10).parent ∧
    (∀ m ∈ [(⟨2, 0, 6, 3, none⟩ : Event)],
      (processPending zi none
        [⟨1, 0, 5, 0, some 10⟩, ⟨2, 0, 6, 3, none⟩,
          ⟨3, 0, 7, 9, none⟩]).eventScope m.eid = some (some 10)) ∧
    (processPending zi none
        [⟨1, 0, 5, 0, some 10⟩, ⟨2, 0, 6, 3, none⟩,
          ⟨3, 0, 7, 9, none⟩]).eventScope 3 = some (some 10) ∧
    ((processPending zi none
        [⟨1, 0, 5, 0, some 10⟩, ⟨2, 0, 6, 3, none⟩,
          ⟨3, 0, 7, 9, none⟩]).scopes 10).leaveEvent = some ⟨3, 0, 7, 9, none⟩ :=
  orphan_enter_becomes_cursor zi none ⟨1, 0, 5, 0, some 10⟩ ⟨3, 0, 7, 9, none⟩
    [⟨2, 0, 6, 3, none⟩] 10 rfl (by decide) (by decide) rfl (by decide)
    (by decide)

/-- C5: in-order insertion (timestamps non-decreasing and at least the
batch's starting `lastAddEventTime`) of the properly nested batch
enter A, enter B, leave B, leave A for the index's zone makes A the parent
of B, puts B into A's children list, and records each leave event on its
matching scope: the first leave on B, the second on A. The batch starts
from a quiescent index (empty pending list, as guaranteed at every batch
boundary). -/
theorem nested_scope_pairs (s : ZoneIndexState) (a b i1 i2 i3 i4 t1 t2 t3 t4 : Nat)
    (hab : a ≠ b) (hpend0 : s.pendingOutOfOrderEvents = [])
    (h1 : getLastEventTime s ≤ t1) (h12 : t1 ≤ t2) (h23 : t2 ≤ t3)
    (h34 : t3 ≤ t4) :
    ((runBatch s [⟨i1, s.zone, t1, 0, some a⟩, ⟨i2, s.zone, t2, 0, some b⟩,
          ⟨i3, s.zone, t3, s.scopeLeaveType, none⟩,
          ⟨i4, s.zone, t4, s.scopeLeaveType, none⟩]).scopes b).parent = some a ∧
    b ∈ ((runBatch s [⟨i1, s.zone, t1, 0, some a⟩, ⟨i2, s.zone, t2, 0, some b⟩,
          ⟨i3, s.zone, t3, s.scopeLeaveType, none⟩,
          ⟨i4, s.zone, t4, s.scopeLeaveType, none⟩]).scopes a).children ∧
    ((runBatch s [⟨i1, s.zone, t1, 0, some a⟩, ⟨i2, s.zone, t2, 0, some b⟩,
          ⟨i3, s.zone, t3, s.scopeLeaveType, none⟩,
          ⟨i4, s.zone, t4, s.scopeLeaveType, none⟩]).scopes b).leaveEvent
        = some ⟨i3, s.zone, t3, s.scopeLeaveType, none⟩ ∧
    ((runBatch s [⟨i1, s.zone, t1, 0, some a⟩, ⟨i2, s.zone, t2, 0, some b⟩,
          ⟨i3, s.zone, t3, s.scopeLeaveType, none⟩,
          ⟨i4, s.zone, t4, s.scopeLeaveType, none⟩]).scopes a).leaveEvent
        = some ⟨i4, s.zone, t4, s.scopeLeaveType, none⟩ := by
  have hn1 : ¬ t1 < getLastEventTime s := by omega
  have hn2 : ¬ t2 < t1 := by omega
  have hn3 : ¬ t3 < t2 := by omega
  have hn4 : ¬ t4 < t3 := by omega
  unfold runBatch
  simp only [List.foldl_cons, List.foldl_nil]
  simp [insertEvent, processInOrder, beginInserting, endInserting,
        processPending, addChild, setScopeData, setLeaveEvent, setEventScope,
        hn1, hn2, hn3, hn4, hab, Ne.symm hab, hpend0]

/-- Witness for C5 at concrete inputs: the batch enter A(t=0), enter B(t=1),
leave(t=2), leave(t=3) on the fresh zone-0 index. -/
theorem nested_scope_pairs_witness :
    ((runBatch zi [⟨1, zi.zone, 0, 0, some 10⟩, ⟨2, zi.zone, 1, 0, some 20⟩,
          ⟨3, zi.zone, 2, zi.scopeLeaveType, none⟩,
          ⟨4, zi.zone, 3, zi.scopeLeaveType, none⟩]).scopes 20).parent
        = some 10 ∧
    20 ∈ ((runBatch zi [⟨1, zi.zone, 0, 0, some 10⟩, ⟨2, zi.zone, 1, 0, some 20⟩,
          ⟨3, zi.zone, 2, zi.scopeLeaveType, none⟩,
          ⟨4, zi.zone, 3, zi.scopeLeaveType, none⟩]).scopes 10).children ∧
    ((runBatch zi [⟨1, zi.zone, 0, 0, some 10⟩, ⟨2, zi.zone, 1, 0, some 20⟩,
          ⟨3, zi.zone, 2, zi.scopeLeaveType, none⟩,
          ⟨4, zi.zone, 3, zi.scopeLeaveType, none⟩]).scopes 20).leaveEvent
        = some ⟨3, zi.zone, 2, zi.scopeLeaveType, none⟩ ∧
    ((runBatch zi [⟨1, zi.zone, 0, 0, some 10⟩, ⟨2, zi.zone, 1, 0, some 20⟩,
          ⟨3, zi.zone, 2, zi.scopeLeaveType, none⟩,
          ⟨4, zi.zone, 3, zi.scopeLeaveType, none⟩]).scopes 10).leaveEvent
        = some ⟨4, zi.zone, 3, zi.scopeLeaveType, none⟩ :=
  nested_scope_pairs zi 10 20 1 2 3 4 0 1 2 3 (by decide) rfl (by decide)
    (by decide) (by decide) (by decide)

end Wtf
